import Mathlib

/-!
Shallow embedding of the FSL-thesis repository core:
  - the per-user streaming session and room coordination state machines of
    `socketio_events.py` (`handle_process_fsl_frame`, `handle_start_game`,
    `handle_end_game`, `save_game_results`);
  - the feature-extraction pipeline of `improved_fsl_feature_extractor.py`
    (`preprocess_sequence`, `smooth_sequence`, `normalize_sequence` and the
    six feature families of `extract_sequence_features`);
  - the predictor wrapper `SimpleFSLPredictor.predict` of
    `simple_fsl_trainer.py`.
Coordinates are rationals (the transported float payloads); feature values
live in `ℝ` because the source computes Euclidean norms and angles.
-/

/-! ### Frame payloads

A landmark is an `(x, y, z)` coordinate triple (missing keys default to 0 in
the source, folded into the triple here); a hand payload is its `landmarks`
list; a frame payload is the `hands` list, `none` when the dict has no
`hands` key at all (which the source distinguishes from an empty list). -/

abbrev Landmark : Type := ℚ × ℚ × ℚ

structure FrameData where
  hands : Option (List (List Landmark))
deriving DecidableEq

/-! ### Streaming session (`handle_process_fsl_frame`)

State per user: the motion buffer `user_buffers[user_id]`, the counter
`frame_counters[user_id]` and `no_hands_streak[user_id]`. An incoming event
is either a frame in which landmark extraction found hands (carrying the
landmark payload) or a no-hands frame (`extract_fsl_landmarks_from_frame`
returned `None`). The image decoding itself is outside the model. -/

structure FSLSession where
  userBuffer : List FrameData
  frameCounter : Nat
  noHandsStreak : Nat
deriving DecidableEq

inductive FrameEvent
  | handsDetected (fd : FrameData)
  | noHands
deriving DecidableEq

inductive SessionOutput
  | collectingProgress (bufferSize : Nat)
  | predictionCall (sequenceFrames : List FrameData)
  | noHandsNotice
  | silent
deriving DecidableEq

/-- One `process_fsl_frame` event (`socketio_events.py` lines 539-634).
On hands: reset the no-hands streak, append to the buffer, evict the oldest
entry beyond 30, bump the frame counter; below 15 buffered frames emit a
progress notice on every third frame, otherwise invoke the predictor on a
copy of the whole buffer only when the counter is divisible by 3.
On no hands: bump the streak; at 5 clear buffer, counter and streak; emit the
no-hands notice when the (possibly reset) streak is `≡ 1 [MOD 10]`. -/
def handle_process_fsl_frame (s : FSLSession) : FrameEvent → FSLSession × SessionOutput
  | .handsDetected fd =>
    let buf0 := s.userBuffer ++ [fd]
    let buf := if 30 < buf0.length then buf0.drop 1 else buf0
    let bufferSize := buf.length
    let frameCount := s.frameCounter + 1
    let s1 : FSLSession := ⟨buf, frameCount, 0⟩
    if bufferSize < 15 then
      if bufferSize % 3 = 0 then (s1, .collectingProgress bufferSize)
      else (s1, .silent)
    else if frameCount % 3 ≠ 0 then (s1, .silent)
    else (s1, .predictionCall buf)
  | .noHands =>
    let streak0 := s.noHandsStreak + 1
    let s1 : FSLSession :=
      if 5 ≤ streak0 then ⟨[], 0, 0⟩
      else ⟨s.userBuffer, s.frameCounter, streak0⟩
    if s1.noHandsStreak % 10 = 1 then (s1, .noHandsNotice) else (s1, .silent)

/-- Fresh per-user session (buffer, counter and streak all start at zero). -/
def initSession : FSLSession := ⟨[], 0, 0⟩

def runFrom (s : FSLSession) (events : List FrameEvent) : FSLSession :=
  events.foldl (fun s e => (handle_process_fsl_frame s e).1) s

def runSession (events : List FrameEvent) : FSLSession :=
  runFrom initSession events

def runWithOutputs (s : FSLSession) (events : List FrameEvent) :
    FSLSession × List SessionOutput :=
  events.foldl
    (fun acc e =>
      let r := handle_process_fsl_frame acc.1 e
      (r.1, acc.2 ++ [r.2]))
    (s, [])

/-- Session invariant maintained by every event: the buffer never exceeds 30
frames, buffer length equals the appended-frame counter until the ring is
saturated, and the no-hands streak is at most 4 after each event. -/
def SInv (s : FSLSession) : Prop :=
  s.userBuffer.length ≤ 30 ∧
  (s.userBuffer.length < 30 → s.frameCounter = s.userBuffer.length) ∧
  s.noHandsStreak ≤ 4

/-! ### Room coordination (`handle_start_game`, `handle_end_game`,
`save_game_results`)

Participants are modelled by user id (the source keeps usernames in the
participant list and user ids in the score map, in one-to-one
correspondence). `saveCount` counts executions of the persistence block of
`save_game_results`; `persisted` accumulates the rows inserted into
`game_sessions`. `finalScores = none` models the `final_scores` key being
absent from the room dict. The Supabase room-record lookup inside
`save_game_results` is modelled as succeeding. -/

structure RoomState where
  participants : List Nat
  cameraStatus : List (Nat × Bool)
  ongoing : Bool
  scoresSaved : Bool
  finalScores : Option (List (Nat × Int))
  persisted : List (Nat × Int)
  saveCount : Nat
  creatorId : Option Nat
  creatorParticipated : Bool
deriving DecidableEq

def scoreKeys (m : List (Nat × Int)) : List Nat := m.map Prod.fst

/-- Python dict assignment `final_scores[user_id] = score`: overwrite in
place when the key exists (order preserved), else append. -/
def updateScore (m : List (Nat × Int)) (u : Nat) (s : Int) : List (Nat × Int) :=
  if m.any (fun p => p.1 == u) then
    m.map (fun p => if p.1 = u then (u, s) else p)
  else m ++ [(u, s)]

def lookupScore (m : List (Nat × Int)) (u : Nat) : Option Int :=
  (m.find? (fun p => p.1 == u)).map Prod.snd

/-- `save_game_results` (`socketio_events.py` lines 669-720): no-op when the
room has no `final_scores` key, when scores were already persisted, or while
fewer scores than current participants have accumulated; otherwise insert
every score (skipping a non-participating creator), mark the room saved and
clear the score map. -/
def save_game_results (r : RoomState) : RoomState :=
  match r.finalScores with
  | none => r
  | some m =>
    if r.scoresSaved then r
    else if m.length < r.participants.length then r
    else
      { r with
        persisted := r.persisted ++
          m.filter (fun p => !(r.creatorId == some p.1 && !r.creatorParticipated)),
        scoresSaved := true,
        finalScores := some [],
        saveCount := r.saveCount + 1 }

/-- `handle_end_game` (`socketio_events.py` lines 383-398), for a room that
is present in `game_states`: clear the ongoing flag, record the sender's
final score when one is attached (dict write: last write per user wins), and
attempt `save_game_results`. -/
def handle_end_game (u : Nat) (finalScore : Option Int) (r : RoomState) : RoomState :=
  let r1 := { r with ongoing := false }
  let r2 :=
    match finalScore with
    | some s => { r1 with finalScores := some (updateScore (r1.finalScores.getD []) u s) }
    | none => r1
  save_game_results r2

inductive StartOutcome
  | startGameCountdown
  | notAllReady (ready total : Nat)
deriving DecidableEq

/-- `handle_start_game` (`socketio_events.py` lines 337-360). The source
sets `game_states[room]["ongoing"] = True` unconditionally, before the
readiness barrier is evaluated; only on success does it reset
`scores_saved` and emit the countdown, otherwise it emits the
`"Not all cameras ready. N/M ready."` rejection. -/
def handle_start_game (r : RoomState) : RoomState × StartOutcome :=
  let r1 : RoomState := { r with ongoing := true }
  let totalUsers : Nat := r1.cameraStatus.length
  let readyUsers : Nat := (r1.cameraStatus.filter (fun p => p.2)).length
  let r2 : RoomState := { r1 with scoresSaved := false }
  if readyUsers = totalUsers ∧ 0 < totalUsers then
    (r2, StartOutcome.startGameCountdown)
  else
    (r1, StartOutcome.notAllReady readyUsers totalUsers)

/-- Room state right after a game has started: scores not yet persisted and
no `final_scores` key. -/
def startedRoom (ps : List Nat) : RoomState :=
  { participants := ps
    cameraStatus := []
    ongoing := true
    scoresSaved := false
    finalScores := none
    persisted := []
    saveCount := 0
    creatorId := none
    creatorParticipated := true }

def runEndGames (r : RoomState) (events : List (Nat × Int)) : RoomState :=
  events.foldl (fun s e => handle_end_game e.1 (some e.2) s) r

/-! ### Numeric helpers mirroring numpy/scipy

`np.allclose(v, 0)` with default tolerances is `|vᵢ| ≤ 1e-8` elementwise
(the relative term vanishes against 0). `np.mean`/`np.std` are sum/length
and the population standard deviation. Comparisons between computed real
numbers (which the source performs on floats) use classical decidability,
so the defs involving them are `noncomputable`; all branch conditions that
the proofs below actually evaluate are rational and decidable. -/

def atol : ℚ := 1 / 100000000

def qmean (l : List ℚ) : ℚ := l.sum / l.length

def qmeanR (l : List ℚ) : ℝ := ((qmean l : ℚ) : ℝ)

noncomputable def qstdR (l : List ℚ) : ℝ :=
  Real.sqrt (((l.map (fun x => (x - qmean l) ^ 2)).sum / l.length : ℚ) : ℝ)

def qmax (l : List ℚ) : ℚ :=
  match l with
  | [] => 0
  | x :: xs => xs.foldl max x

def qmin (l : List ℚ) : ℚ :=
  match l with
  | [] => 0
  | x :: xs => xs.foldl min x

noncomputable def rmean (l : List ℝ) : ℝ := l.sum / l.length

noncomputable def rstd (l : List ℝ) : ℝ :=
  Real.sqrt (rmean (l.map (fun x => (x - rmean l) ^ 2)))

noncomputable def npMax (l : List ℝ) : ℝ :=
  match l with
  | [] => 0
  | x :: xs => xs.foldl max x

noncomputable def rite (p : Prop) (x y : ℝ) : ℝ := @ite _ p (Classical.propDecidable p) x y

noncomputable def rPred (p : Prop) : Bool := @decide p (Classical.propDecidable p)

/-- `np.clip(x, -1, 1)`. -/
noncomputable def rclip (x : ℝ) : ℝ := min 1 (max (-1) x)

abbrev Pt2 : Type := ℚ × ℚ

noncomputable def edist2 (p q : Pt2) : ℝ :=
  Real.sqrt (((p.1 - q.1) ^ 2 + (p.2 - q.2) ^ 2 : ℚ) : ℝ)

/-- `np.allclose(p, 0)` for a 2-D point. -/
def nearZero2 (p : Pt2) : Bool := decide (|p.1| ≤ atol) && decide (|p.2| ≤ atol)

/-- `np.all(p == 0)` for a 2-D point (exact, used by the statistical and
complexity filters). -/
def exactZero2 (p : Pt2) : Bool := decide (p.1 = 0) && decide (p.2 = 0)

/-- `np.arctan2 y x`, as the argument of the complex number `x + y i`. -/
noncomputable def atan2R (y x : ℝ) : ℝ := Complex.arg ⟨x, y⟩

def vsub (p q : Pt2) : Pt2 := (p.1 - q.1, p.2 - q.2)

def vdot (p q : Pt2) : ℚ := p.1 * q.1 + p.2 * q.2

/-- 2-D `np.cross` (scalar z-component). -/
def cross2 (p q : Pt2) : ℚ := p.1 * q.2 - p.2 * q.1

noncomputable def vnorm (p : Pt2) : ℝ := Real.sqrt ((p.1 ^ 2 + p.2 ^ 2 : ℚ) : ℝ)

/-- Pearson correlation (`np.corrcoef(a, b)[0, 1]`; the `1/(n-1)`
normalisations cancel). -/
noncomputable def pearsonCorr (a b : List ℝ) : ℝ :=
  let da := a.map (fun x => x - rmean a)
  let db := b.map (fun x => x - rmean b)
  (List.zipWith (· * ·) da db).sum /
    Real.sqrt ((da.map (fun x => x ^ 2)).sum * (db.map (fun x => x ^ 2)).sum)

/-! ### Preprocessing (`preprocess_sequence`, `smooth_sequence`,
`normalize_sequence`)

The structured landmarks array `(frames × 2 hands × 21 landmarks × 3
coords)` is a nested list of rationals, built exactly as the source does:
pad the hands list to 2 with an all-zero sentinel hand, take the first 2,
pad each hand's landmarks to 21 with zeros, take the first 21. -/

abbrev LandArr : Type := List (List (List (List ℚ)))

def sentinelHand : List Landmark := List.replicate 21 (0, 0, 0)

def shapeFrames (frames : List FrameData) : LandArr :=
  frames.map (fun f =>
    let hands := (f.hands.getD []) ++ List.replicate (2 - (f.hands.getD []).length) sentinelHand
    (hands.take 2).map (fun h =>
      let lms := h ++ List.replicate (21 - h.length) ((0 : ℚ), (0 : ℚ), (0 : ℚ))
      (lms.take 21).map (fun lm => [lm.1, lm.2.1, lm.2.2])))

def coordAt (a : LandArr) (t h l c : Nat) : ℚ :=
  (((a.getD t []).getD h []).getD l []).getD c 0

/-- The `(hand, landmark, coord)` time series across frames. -/
def seriesOf (a : LandArr) (h l c : Nat) : List ℚ :=
  a.map (fun fr => ((fr.getD h []).getD l []).getD c 0)

/-- `np.convolve(s, [1/3,1/3,1/3], mode='same')` at position `t`
(out-of-range neighbours contribute 0). -/
def convSame3 (s : List ℚ) (t : Nat) : ℚ :=
  ((if t = 0 then 0 else s.getD (t - 1) 0) + s.getD t 0 + s.getD (t + 1) 0) / 3

/-- `smooth_sequence`: for windows of at least 3 frames, smooth every
`(hand, landmark, coord)` time series that is not identically zero with the
width-3 moving average; all-zero series are left untouched. -/
def smooth_sequence (a : LandArr) : LandArr :=
  if a.length < 3 then a
  else
    a.mapIdx (fun t fr =>
      fr.mapIdx (fun h hand =>
        hand.mapIdx (fun l lm =>
          lm.mapIdx (fun c v =>
            if (seriesOf a h l c).any (fun x => decide (x ≠ 0)) then
              convSame3 (seriesOf a h l c) t
            else v))))

/-- `normalize_sequence`: per frame and hand, when the wrist (landmark 0)
has some exactly-nonzero coordinate, subtract the wrist from all 21
landmarks of that hand. -/
def normalize_sequence (a : LandArr) : LandArr :=
  a.map (fun fr =>
    fr.map (fun hand =>
      let wrist := hand.getD 0 []
      if wrist.any (fun x => decide (x ≠ 0)) then
        hand.map (fun lm => List.zipWith (fun x w => x - w) lm wrist)
      else hand))

/-- `preprocess_sequence`: shape, smooth, normalize. The source wraps this
in a broad try/except returning `None`; on well-typed input no step can
fail, so the result is always `some`. -/
def preprocess_sequence (frames : List FrameData) : Option LandArr :=
  some (normalize_sequence (smooth_sequence (shapeFrames frames)))

/-- Python aliasing effect of `preprocess_sequence` on its argument: when a
frame dict has a `hands` key, the hands list is padded in place to 2
entries, and each of the first two hands' landmark lists is padded in place
to 21; frames without the key get a fresh temporary list and stay
unchanged. `extract_global_features` later counts `len(frame['hands'])` on
these mutated frames. -/
def padHandsEffect (frames : List FrameData) : List FrameData :=
  frames.map (fun f =>
    { hands := f.hands.map (fun hs =>
        let hs2 := hs ++ List.replicate (2 - hs.length) sentinelHand
        hs2.mapIdx (fun i h =>
          if i < 2 then h ++ List.replicate (21 - h.length) ((0 : ℚ), (0 : ℚ), (0 : ℚ))
          else h)) })

/-! ### Feature families -/

def numHands (a : LandArr) : Nat := (a.getD 0 []).length

def numLandmarks (a : LandArr) : Nat := ((a.getD 0 []).getD 0 []).length

def pt2At (a : LandArr) (t h l : Nat) : Pt2 := (coordAt a t h l 0, coordAt a t h l 1)

def framePt (fr : List (List (List ℚ))) (h l : Nat) : Pt2 :=
  (((fr.getD h []).getD l []).getD 0 0, ((fr.getD h []).getD l []).getD 1 0)

def wristPts (a : LandArr) (h : Nat) : List Pt2 := a.map (fun fr => framePt fr h 0)

/-- `np.any(hand_landmarks)` over the `(frames × 21 × 2)` slice of hand `h`. -/
def handAny (a : LandArr) (h : Nat) : Bool :=
  a.any (fun fr => (fr.getD h []).any (fun lm => (lm.take 2).any (fun x => decide (x ≠ 0))))

/-- The `while len(features) < k: features.append(0)` / `features[:k]`
normalisation each family ends with. -/
def padTruncate (k : Nat) (l : List ℝ) : List ℝ :=
  (l ++ List.replicate (k - l.length) 0).take k

/-- One hand's slice of `extract_spatial_features` (15 features: span,
finger spread, orientation mean/std, palm statistics — note the source
takes `np.mean(..., axis=2)`, the mean over the two coordinates per
landmark — and five finger bends). -/
noncomputable def spatial_hand (a : LandArr) (h : Nat) : List ℝ :=
  if numHands a ≤ h then List.replicate 15 0
  else if !handAny a h then List.replicate 15 0
  else
    let n := a.length
    let handSpans := (List.range n).filterMap (fun t =>
      let thumbTip := pt2At a t h 4
      let pinkyTip := pt2At a t h 20
      if nearZero2 thumbTip || nearZero2 pinkyTip then none
      else some (edist2 thumbTip pinkyTip))
    let f1 : ℝ := if handSpans.isEmpty then 0 else rmean handSpans
    let fingerTips : List Nat := [4, 8, 12, 16, 20]
    let spreads := (List.range n).filterMap (fun t =>
      let frameSpreads := (fingerTips.zip (fingerTips.drop 1)).filterMap (fun pr =>
        let tip1 := pt2At a t h pr.1
        let tip2 := pt2At a t h pr.2
        if nearZero2 tip1 || nearZero2 tip2 then none else some (edist2 tip1 tip2))
      if frameSpreads.isEmpty then none else some (rmean frameSpreads))
    let f2 : ℝ := if spreads.isEmpty then 0 else rmean spreads
    let orientations := (List.range n).filterMap (fun t =>
      let w := pt2At a t h 0
      let m9 := pt2At a t h 9
      if nearZero2 w || nearZero2 m9 then none
      else some (atan2R ((m9.2 - w.2 : ℚ) : ℝ) ((m9.1 - w.1 : ℚ) : ℝ)))
    let f3 : ℝ := if orientations.isEmpty then 0 else rmean orientations
    let f4 : ℝ := if orientations.isEmpty then 0 else rstd orientations
    let palmProfile : Nat → List ℚ := fun t =>
      (List.range 21).map (fun l => (coordAt a t h l 0 + coordAt a t h l 1) / 2)
    let palmPositions := (List.range n).filterMap (fun t =>
      if (palmProfile t).all (fun x => decide (|x| ≤ atol)) then none else some (palmProfile t))
    let palmFeats : List ℝ :=
      if palmPositions.isEmpty then List.replicate 6 0
      else
        let col0 := palmPositions.map (fun p => p.getD 0 0)
        let col1 := palmPositions.map (fun p => p.getD 1 0)
        [qmeanR col0, qmeanR col1, qstdR col0, qstdR col1,
         ((qmax col0 - qmin col0 : ℚ) : ℝ), ((qmax col1 - qmin col1 : ℚ) : ℝ)]
    let fingerIndices : List (List Nat) :=
      [[1, 2, 3, 4], [5, 6, 7, 8], [9, 10, 11, 12], [13, 14, 15, 16], [17, 18, 19, 20]]
    let fingerBends : List ℝ := fingerIndices.map (fun fg =>
      let bends := (List.range n).filterMap (fun t =>
        let base := pt2At a t h (fg.getD 0 0)
        let tip := pt2At a t h (fg.getD 3 0)
        if nearZero2 base || nearZero2 tip then none else some (edist2 base tip))
      if bends.isEmpty then (0 : ℝ) else rmean bends)
    [f1, f2, f3, f4] ++ palmFeats ++ fingerBends

noncomputable def extract_spatial_features (a : LandArr) : List ℝ :=
  padTruncate 30 (spatial_hand a 0 ++ spatial_hand a 1)

/-- Per-frame wrist displacement velocities of hand `h`, skipping pairs in
which either endpoint is `np.allclose` to the origin. -/
noncomputable def velocitiesOf (a : LandArr) (h : Nat) : List ℝ :=
  let wp := wristPts a h
  (wp.zip (wp.drop 1)).filterMap (fun pr =>
    if nearZero2 pr.2 || nearZero2 pr.1 then none else some (edist2 pr.2 pr.1))

/-- One hand's slice of `extract_enhanced_temporal_features` (6 features). -/
noncomputable def temporal_hand (a : LandArr) (h : Nat) : List ℝ :=
  if numHands a ≤ h || a.length < 2 then List.replicate 6 0
  else
    let velocities := velocitiesOf a h
    let velFeats : List ℝ :=
      if velocities.isEmpty then [0, 0] else [rmean velocities, rstd velocities]
    let accelerations : List ℝ :=
      if 1 < velocities.length then
        (velocities.zip (velocities.drop 1)).map (fun pr => |pr.2 - pr.1|)
      else []
    let accFeats : List ℝ :=
      if accelerations.isEmpty then [0, 0] else [rmean accelerations, npMax accelerations]
    let velocityChanges : ℝ :=
      if 1 < velocities.length then
        (((velocities.zip (velocities.drop 1)).filter
            (fun pr => rPred (rstd velocities * (1 / 2) < |pr.2 - pr.1|))).length : ℝ)
      else 0
    let smoothRatioFeat : ℝ :=
      if 2 < velocities.length then
        max 0 (1 - rstd velocities / (rmean velocities + 1 / 100000000))
      else 0
    velFeats ++ accFeats ++ [velocityChanges, smoothRatioFeat]

noncomputable def extract_enhanced_temporal_features (a : LandArr) : List ℝ :=
  padTruncate 12 (temporal_hand a 0 ++ temporal_hand a 1)

/-- One hand's slice of `extract_geometric_features` (2 features). -/
noncomputable def geometric_hand (a : LandArr) (h : Nat) : List ℝ :=
  if numHands a ≤ h then [0, 0]
  else if !handAny a h then [0, 0]
  else
    let thumbIndexDists := (List.range a.length).filterMap (fun t =>
      if nearZero2 (pt2At a t h 4) || nearZero2 (pt2At a t h 8) then none
      else some (edist2 (pt2At a t h 4) (pt2At a t h 8)))
    let wristMiddleDists := (List.range a.length).filterMap (fun t =>
      if nearZero2 (pt2At a t h 0) || nearZero2 (pt2At a t h 12) then none
      else some (edist2 (pt2At a t h 0) (pt2At a t h 12)))
    [if thumbIndexDists.isEmpty then 0 else rmean thumbIndexDists,
     if wristMiddleDists.isEmpty then 0 else rmean wristMiddleDists]

noncomputable def extract_geometric_features (a : LandArr) : List ℝ :=
  padTruncate 4 (geometric_hand a 0 ++ geometric_hand a 1)

/-- One hand's slice of `extract_statistical_features` (4 features over the
non-exactly-zero `(x, y)` landmark samples of the whole window). -/
noncomputable def statistical_hand (a : LandArr) (h : Nat) : List ℝ :=
  if numHands a ≤ h then List.replicate 4 0
  else
    let allPts := (List.range a.length).flatMap (fun t =>
      (List.range 21).map (fun l => pt2At a t h l))
    if !handAny a h then List.replicate 4 0
    else
      let validLandmarks := allPts.filter (fun p => !exactZero2 p)
      if validLandmarks.isEmpty then List.replicate 4 0
      else
        [qmeanR (validLandmarks.map Prod.fst), qmeanR (validLandmarks.map Prod.snd),
         qstdR (validLandmarks.map Prod.fst), qstdR (validLandmarks.map Prod.snd)]

noncomputable def extract_statistical_features (a : LandArr) : List ℝ :=
  padTruncate 8 (statistical_hand a 0 ++ statistical_hand a 1)

/-- `calculate_circularity`. -/
noncomputable def calculate_circularity (positions : List Pt2) : ℝ :=
  if positions.length < 5 then 0
  else
    let cx := qmean (positions.map Prod.fst)
    let cy := qmean (positions.map Prod.snd)
    let radii := positions.map (fun p => edist2 p (cx, cy))
    rite (rmean radii = 0) 0 (max 0 (min 1 (1 - rstd radii / rmean radii)))

/-- `calculate_angularity` (fraction of consecutive turn angles below 120°,
counted only where both local segments are nonzero). -/
noncomputable def calculate_angularity (positions : List Pt2) : ℝ :=
  if positions.length < 4 then 0
  else
    let sharpAngles := ((List.range positions.length).drop 2).filter (fun i =>
      let v1 := vsub (positions.getD (i - 1) (0, 0)) (positions.getD (i - 2) (0, 0))
      let v2 := vsub (positions.getD i (0, 0)) (positions.getD (i - 1) (0, 0))
      rPred (0 < vnorm v1 ∧ 0 < vnorm v2 ∧
        Real.arccos (rclip (((vdot v1 v2 : ℚ) : ℝ) / (vnorm v1 * vnorm v2))) < 2 * Real.pi / 3))
    (sharpAngles.length : ℝ) / ((max 1 (positions.length - 2) : Nat) : ℝ)

/-- `count_corners` (2-step-lag turn angles above 60°, capped at 8). -/
noncomputable def count_corners (positions : List Pt2) : ℝ :=
  if positions.length < 6 then 0
  else
    let corners := ((List.range (positions.length - 2)).drop 2).filter (fun i =>
      let v1 := vsub (positions.getD i (0, 0)) (positions.getD (i - 2) (0, 0))
      let v2 := vsub (positions.getD (i + 2) (0, 0)) (positions.getD i (0, 0))
      rPred (0 < vnorm v1 ∧ 0 < vnorm v2 ∧
        Real.pi / 3 < Real.arccos (rclip (((vdot v1 v2 : ℚ) : ℝ) / (vnorm v1 * vnorm v2)))))
    min (corners.length : ℝ) 8

/-- `calculate_path_regularity`. -/
noncomputable def calculate_path_regularity (positions : List Pt2) : ℝ :=
  if positions.length < 3 then 0
  else
    let distances := (positions.zip (positions.drop 1)).map (fun pr => vnorm (vsub pr.2 pr.1))
    rite (distances.length = 0 ∨ rmean distances = 0) 0
      (max 0 (min 1 (1 - rstd distances / rmean distances)))

/-- `count_direction_changes` (turn angles above 30°, capped at 20 and
normalised). -/
noncomputable def count_direction_changes (positions : List Pt2) : ℝ :=
  if positions.length < 3 then 0
  else
    let dirChanges := ((List.range (positions.length - 1)).drop 1).filter (fun i =>
      let v1 := vsub (positions.getD i (0, 0)) (positions.getD (i - 1) (0, 0))
      let v2 := vsub (positions.getD (i + 1) (0, 0)) (positions.getD i (0, 0))
      rPred (0 < vnorm v1 ∧ 0 < vnorm v2 ∧
        Real.pi / 6 < Real.arccos (rclip (((vdot v1 v2 : ℚ) : ℝ) / (vnorm v1 * vnorm v2)))))
    min (dirChanges.length : ℝ) 20 / 20

/-- `calculate_straightness`. -/
noncomputable def calculate_straightness (positions : List Pt2) : ℝ :=
  if positions.length < 2 then 0
  else
    let totalPathLength :=
      ((positions.zip (positions.drop 1)).map (fun pr => vnorm (vsub pr.2 pr.1))).sum
    let directDistance :=
      vnorm (vsub (positions.getD (positions.length - 1) (0, 0)) (positions.getD 0 (0, 0)))
    rite (totalPathLength = 0) 0 (min 1 (directDistance / totalPathLength))

/-- `calculate_curvature_variance`. -/
noncomputable def calculate_curvature_variance (positions : List Pt2) : ℝ :=
  if positions.length < 4 then 0
  else
    let curvatures := ((List.range (positions.length - 1)).drop 1).filterMap (fun i =>
      let v1 := vsub (positions.getD i (0, 0)) (positions.getD (i - 1) (0, 0))
      let v2 := vsub (positions.getD (i + 1) (0, 0)) (positions.getD i (0, 0))
      if rPred (0 < vnorm v1) then some (|((cross2 v1 v2 : ℚ) : ℝ)| / vnorm v1 ^ 3) else none)
    if curvatures.isEmpty then 0 else rstd curvatures

/-- `calculate_symmetry_score` (correlation of the centroid-distance profile
halves; with positive standard deviations the correlation is well defined,
so the source's NaN fallback has no counterpart here). -/
noncomputable def calculate_symmetry_score (positions : List Pt2) : ℝ :=
  if positions.length < 4 then 0
  else
    let cx := qmean (positions.map Prod.fst)
    let cy := qmean (positions.map Prod.snd)
    let distances := positions.map (fun p => edist2 p (cx, cy))
    if distances.length < 4 then 0
    else
      let mid := distances.length / 2
      let firstHalf := distances.take mid
      let secondHalf := (distances.drop (distances.length - mid)).reverse
      if firstHalf.length ≠ secondHalf.length ∨ firstHalf.length = 0 then 0
      else
        rite (0 < rstd firstHalf ∧ 0 < rstd secondHalf)
          (max 0 (pearsonCorr firstHalf secondHalf)) 0

/-- One hand's slice of `extract_trajectory_features` (8 features over the
wrist's non-`allclose`-zero 2-D path; fewer than 5 valid points gives
all-zero). -/
noncomputable def trajectory_hand (a : LandArr) (h : Nat) : List ℝ :=
  if numHands a ≤ h then List.replicate 8 0
  else
    let validPositions := (wristPts a h).filter (fun p => !nearZero2 p)
    if validPositions.length < 5 then List.replicate 8 0
    else
      [calculate_circularity validPositions, calculate_angularity validPositions,
       count_corners validPositions, calculate_path_regularity validPositions,
       count_direction_changes validPositions, calculate_straightness validPositions,
       calculate_curvature_variance validPositions, calculate_symmetry_score validPositions]

noncomputable def extract_trajectory_features (a : LandArr) : List ℝ :=
  padTruncate 16 (trajectory_hand a 0 ++ trajectory_hand a 1)

/-- `calculate_hand_motion`: total wrist path length of hand `h` over valid
consecutive frame pairs. -/
noncomputable def calculate_hand_motion (a : LandArr) (h : Nat) : ℝ :=
  if numHands a ≤ h || a.length < 2 then 0
  else (velocitiesOf a h).sum

/-- `calculate_hand_synchronization`. -/
noncomputable def calculate_hand_synchronization (a : LandArr) : ℝ :=
  if numHands a < 2 || a.length < 3 then 0
  else
    let leftVelocities := velocitiesOf a 0
    let rightVelocities := velocitiesOf a 1
    let minLen := min leftVelocities.length rightVelocities.length
    if 2 < minLen then
      rite (0 < rstd (leftVelocities.take minLen) ∧ 0 < rstd (rightVelocities.take minLen))
        (max 0 (pearsonCorr (leftVelocities.take minLen) (rightVelocities.take minLen))) 0
    else 0

/-- `calculate_gesture_complexity`. -/
noncomputable def calculate_gesture_complexity (a : LandArr) : ℝ :=
  let totalPossible := a.length * numHands a * numLandmarks a
  let activeLandmarks := ((List.range a.length).flatMap (fun t =>
    (List.range (numHands a)).flatMap (fun h =>
      (List.range (numLandmarks a)).filter (fun l =>
        !(((a.getD t []).getD h []).getD l []).all (fun x => decide (|x| ≤ atol)))))).length
  let factor1 : List ℝ :=
    if 0 < totalPossible then [(activeLandmarks : ℝ) / (totalPossible : ℝ)] else []
  let motionVariances : List ℝ := (List.range (numHands a)).map (fun h => calculate_hand_motion a h)
  let factor2 : List ℝ :=
    if motionVariances.isEmpty then []
    else [min 1 (if 1 < motionVariances.length then rstd motionVariances else 0)]
  let temporalChanges : ℝ := ((List.range (numHands a)).flatMap (fun h =>
    (List.range (numLandmarks a)).filterMap (fun l =>
      let positions := (List.range a.length).map (fun t => pt2At a t h l)
      let validPositions := positions.filter (fun p => !exactZero2 p)
      if 1 < validPositions.length then
        some ((qstdR (validPositions.map Prod.fst) + qstdR (validPositions.map Prod.snd)) / 2)
      else none))).sum
  let factor3 : List ℝ := [min 1 (temporalChanges / 10)]
  let complexityFactors := factor1 ++ factor2 ++ factor3
  if complexityFactors.isEmpty then 0 else rmean complexityFactors

/-- `extract_global_features`: mean `len(frame['hands'])` over the frame
dicts (as mutated in place by `preprocess_sequence`), inter-wrist
separation change, relative motion, dominant-hand activity,
synchronization, complexity. -/
noncomputable def extract_global_features (a : LandArr) (frames : List FrameData) : List ℝ :=
  let avgHands : ℝ :=
    ((frames.map (fun f => (f.hands.getD []).length)).sum : ℝ) / (frames.length : ℝ)
  let sepFeat : ℝ :=
    if 2 ≤ numHands a then
      let separations := a.filterMap (fun fr =>
        let leftWrist := framePt fr 0 0
        let rightWrist := framePt fr 1 0
        if nearZero2 leftWrist || nearZero2 rightWrist then none
        else some (edist2 leftWrist rightWrist))
      if 1 < separations.length then
        |separations.getD (separations.length - 1) 0 - separations.getD 0 0|
      else 0
    else 0
  let leftMotion := calculate_hand_motion a 0
  let rightMotion := calculate_hand_motion a 1
  let totalMotion := leftMotion + rightMotion
  let relativeMotion := rite (0 < totalMotion) (|leftMotion - rightMotion| / totalMotion) 0
  let dominantActivity := rite (0 < totalMotion) (max leftMotion rightMotion / totalMotion) 0
  let syncScore := calculate_hand_synchronization a
  let complexity := calculate_gesture_complexity a
  padTruncate 6 [avgHands, sepFeat, relativeMotion, dominantActivity, syncScore, complexity]

/-- `extract_sequence_features`: `None` for windows of fewer than 5 frames
or when preprocessing fails; otherwise the concatenation of the six feature
families in fixed order. `padHandsEffect` reflects that preprocessing has
already padded the frame dicts in place when the global features read them. -/
noncomputable def extract_sequence_features (frames : List FrameData) : Option (List ℝ) :=
  if frames.length < 5 then none
  else
    match preprocess_sequence frames with
    | none => none
    | some a =>
      let framesPadded := padHandsEffect frames
      some (extract_spatial_features a ++ extract_enhanced_temporal_features a ++
            extract_geometric_features a ++ extract_statistical_features a ++
            extract_trajectory_features a ++ extract_global_features a framesPadded)

/-- The parallel feature-name list built by `_initialize_feature_names`
(15 spatial + 6 temporal + 2 geometric + 4 statistical + 8 trajectory names
per hand, then 6 global names). -/
def feature_names : List String :=
  ["hand0_avg_span", "hand0_avg_finger_spread", "hand0_avg_orientation",
   "hand0_std_orientation", "hand0_palm_center_x", "hand0_palm_center_y",
   "hand0_palm_std_x", "hand0_palm_std_y", "hand0_palm_range_x",
   "hand0_palm_range_y", "hand0_thumb_bend", "hand0_index_bend",
   "hand0_middle_bend", "hand0_ring_bend", "hand0_pinky_bend",
   "hand1_avg_span", "hand1_avg_finger_spread", "hand1_avg_orientation",
   "hand1_std_orientation", "hand1_palm_center_x", "hand1_palm_center_y",
   "hand1_palm_std_x", "hand1_palm_std_y", "hand1_palm_range_x",
   "hand1_palm_range_y", "hand1_thumb_bend", "hand1_index_bend",
   "hand1_middle_bend", "hand1_ring_bend", "hand1_pinky_bend",
   "hand0_avg_velocity", "hand0_std_velocity", "hand0_avg_acceleration",
   "hand0_max_acceleration", "hand0_velocity_changes", "hand0_smooth_ratio",
   "hand1_avg_velocity", "hand1_std_velocity", "hand1_avg_acceleration",
   "hand1_max_acceleration", "hand1_velocity_changes", "hand1_smooth_ratio",
   "hand0_thumb_index_dist", "hand0_wrist_middle_dist",
   "hand1_thumb_index_dist", "hand1_wrist_middle_dist",
   "hand0_mean_x", "hand0_mean_y", "hand0_std_x", "hand0_std_y",
   "hand1_mean_x", "hand1_mean_y", "hand1_std_x", "hand1_std_y",
   "hand0_circularity", "hand0_angularity", "hand0_corner_count",
   "hand0_path_regularity", "hand0_direction_changes", "hand0_straightness",
   "hand0_curvature_variance", "hand0_symmetry_score",
   "hand1_circularity", "hand1_angularity", "hand1_corner_count",
   "hand1_path_regularity", "hand1_direction_changes", "hand1_straightness",
   "hand1_curvature_variance", "hand1_symmetry_score",
   "avg_hands_detected", "hand_separation_change", "relative_motion",
   "dominant_hand_activity", "synchronization_score", "overall_complexity"]

/-! ### Predictor (`SimpleFSLPredictor.predict`)

The model artifact bundles the fitted `StandardScaler` statistics (whose
length is the dimensionality the artifact expects), the class names from
the metadata / label encoder, and the forest's `predict_proba` (an opaque
function of the scaled vector; float probabilities are rationals). The
artifact is taken as loaded. `scaler.transform` raises a `ValueError` when
the input width differs from the fitted `n_features_in_`; the broad
`except` in `predict` turns any such exception into the generic
`{'prediction': 'prediction_error', 'confidence': 0.0}` result. -/

structure FSLModelArtifact where
  scalerMean : List ℚ
  scalerScale : List ℚ
  classNames : List String
  predictProbaQ : List ℝ → List ℚ

noncomputable def scalerTransform (art : FSLModelArtifact) (v : List ℝ) : Except Unit (List ℝ) :=
  if v.length = art.scalerMean.length then
    Except.ok ((v.zip (art.scalerMean.zip art.scalerScale)).map
      (fun pr => (pr.1 - (pr.2.1 : ℝ)) / (pr.2.2 : ℝ)))
  else Except.error ()

/-- `np.argmax` (first index of the maximum). -/
def argmaxQ (l : List ℚ) : Nat :=
  (l.enum.foldl (fun best pr => if best.2 < pr.2 then pr else best) ((0 : Nat), l.getD 0 0)).1

inductive PredictOutcome
  | insufficientData
  | featureExtractionFailed
  | predictionError
  | okPrediction (sign : String) (confidencePct : ℝ)

/-- `SimpleFSLPredictor.predict` (`simple_fsl_trainer.py` lines 253-293)
with the model loaded: reject windows of fewer than 5 frames, extract
features, scale (a shape mismatch raises and is caught as the generic
prediction-error result), then take the argmax class and report the
confidence as a percentage. -/
noncomputable def predict (art : FSLModelArtifact) (sequenceFrames : List FrameData) :
    PredictOutcome :=
  if sequenceFrames.length < 5 then .insufficientData
  else
    match extract_sequence_features sequenceFrames with
    | none => .featureExtractionFailed
    | some features =>
      match scalerTransform art features with
      | .error _ => .predictionError
      | .ok featuresScaled =>
        let predictionProbs := art.predictProbaQ featuresScaled
        let predictedClassIdx := argmaxQ predictionProbs
        let confidence : ℚ := predictionProbs.getD predictedClassIdx 0
        .okPrediction (art.classNames.getD predictedClassIdx "") ((confidence : ℝ) * 100)

/-! ### Concrete inputs used by witnesses and counterexamples -/

/-- A frame whose payload has exactly one detected hand (one nonzero
landmark; the remaining 20 are padded by preprocessing). -/
def oneHandFrame : FrameData := ⟨some [[((1 : ℚ) / 2, (1 : ℚ) / 2, 0)]]⟩

/-- A 5-frame window whose frames each contain exactly one detected hand. -/
def oneHandWindow : List FrameData := List.replicate 5 oneHandFrame

/-- A mismatched model artifact expecting 10 features. -/
def artifact10 : FSLModelArtifact :=
  { scalerMean := List.replicate 10 0
    scalerScale := List.replicate 10 1
    classNames := ["Hi-Hello"]
    predictProbaQ := fun _ => [1] }

/-- The preprocessed landmarks array (what `preprocess_sequence` wraps in
`some`). -/
def preArr (frames : List FrameData) : LandArr :=
  normalize_sequence (smooth_sequence (shapeFrames frames))

/-! ### Helper lemmas -/

theorem padTruncate_length (k : Nat) (l : List ℝ) : (padTruncate k l).length = k := by
  simp [padTruncate]
  omega

theorem extract_none_iff (frames : List FrameData) :
    extract_sequence_features frames = none ↔ frames.length < 5 := by
  by_cases h : frames.length < 5 <;>
    simp [extract_sequence_features, preprocess_sequence, h]

theorem extract_eq_some (frames : List FrameData) (h : ¬ frames.length < 5) :
    extract_sequence_features frames =
      some (extract_spatial_features (preArr frames) ++
            extract_enhanced_temporal_features (preArr frames) ++
            extract_geometric_features (preArr frames) ++
            extract_statistical_features (preArr frames) ++
            extract_trajectory_features (preArr frames) ++
            extract_global_features (preArr frames) (padHandsEffect frames)) := by
  simp [extract_sequence_features, preprocess_sequence, preArr, h]

theorem extract_length (frames : List FrameData) (v : List ℝ)
    (hv : extract_sequence_features frames = some v) : v.length = 76 := by
  by_cases h : frames.length < 5
  · rw [(extract_none_iff frames).mpr h] at hv
    cases hv
  · rw [extract_eq_some frames h] at hv
    cases hv
    simp only [extract_spatial_features, extract_enhanced_temporal_features,
      extract_geometric_features, extract_statistical_features,
      extract_trajectory_features, extract_global_features,
      List.length_append, padTruncate_length]

/-! ### Claims C4 and C5 -/

/-- C5: for every window with fewer than 5 frames (including the empty
window) `extract_sequence_features` returns `None`, and it returns `None`
only for such windows: in the typed embedding `preprocess_sequence` is
total, so no other input makes extraction fail. -/
theorem c5_extract_none_iff_too_short (frames : List FrameData) :
    extract_sequence_features frames = none ↔ frames.length < 5 :=
  extract_none_iff frames

/-- C4 (counterexample to the claimed 146): on a concrete valid 5-frame
window the extracted feature vector has 76 entries, not 146. -/
theorem c4_counterexample_length_not_146 :
    (extract_sequence_features oneHandWindow).map List.length = some 76 ∧ (76 : Nat) ≠ 146 := by
  constructor
  · have h : ¬ oneHandWindow.length < 5 := by decide
    have he := extract_eq_some oneHandWindow h
    rw [he]
    exact congrArg some (extract_length oneHandWindow _ he)
  · decide

/-- C4 (amended): for every window on which extraction succeeds, the
returned feature vector has exactly 76 entries (30 spatial + 12 temporal +
4 geometric + 8 statistical + 16 trajectory + 6 global), equal to the
length of the parallel feature-name list. -/
theorem c4_feature_vector_length (frames : List FrameData) (v : List ℝ)
    (hv : extract_sequence_features frames = some v) :
    v.length = 76 ∧ feature_names.length = 76 ∧ v.length = feature_names.length := by
  have h76 := extract_length frames v hv
  have hn : feature_names.length = 76 := by decide
  exact ⟨h76, hn, by rw [h76, hn]⟩

/-- C4 witness: the amended theorem applied to the concrete window. -/
theorem c4_witness : (extract_sequence_features oneHandWindow).map List.length = some 76 := by
  have h : ¬ oneHandWindow.length < 5 := by decide
  have he := extract_eq_some oneHandWindow h
  rw [he]
  exact congrArg some (c4_feature_vector_length oneHandWindow _ he).1

/-! ### Session invariant lemmas -/

theorem hands_step_eq (s : FSLSession) (fd : FrameData) :
    handle_process_fsl_frame s (.handsDetected fd) =
      ((⟨if 30 < (s.userBuffer ++ [fd]).length then (s.userBuffer ++ [fd]).drop 1
         else s.userBuffer ++ [fd], s.frameCounter + 1, 0⟩ : FSLSession),
       if (if 30 < (s.userBuffer ++ [fd]).length then (s.userBuffer ++ [fd]).drop 1
           else s.userBuffer ++ [fd]).length < 15 then
         (if (if 30 < (s.userBuffer ++ [fd]).length then (s.userBuffer ++ [fd]).drop 1
              else s.userBuffer ++ [fd]).length % 3 = 0 then
            SessionOutput.collectingProgress
              (if 30 < (s.userBuffer ++ [fd]).length then (s.userBuffer ++ [fd]).drop 1
               else s.userBuffer ++ [fd]).length
          else SessionOutput.silent)
       else if (s.frameCounter + 1) % 3 ≠ 0 then SessionOutput.silent
       else SessionOutput.predictionCall
         (if 30 < (s.userBuffer ++ [fd]).length then (s.userBuffer ++ [fd]).drop 1
          else s.userBuffer ++ [fd])) := by
  simp only [handle_process_fsl_frame]
  split_ifs <;> rfl

theorem nohands_step_fst (s : FSLSession) :
    (handle_process_fsl_frame s .noHands).1 =
      if 5 ≤ s.noHandsStreak + 1 then (⟨[], 0, 0⟩ : FSLSession)
      else ⟨s.userBuffer, s.frameCounter, s.noHandsStreak + 1⟩ := by
  simp only [handle_process_fsl_frame]
  split_ifs <;> rfl

theorem sinv_initSession : SInv initSession := by
  refine ⟨by simp [initSession], by simp [initSession], by simp [initSession]⟩

theorem sinv_step (s : FSLSession) (e : FrameEvent) (h : SInv s) :
    SInv (handle_process_fsl_frame s e).1 := by
  obtain ⟨h30, heq, hstreak⟩ := h
  cases e with
  | handsDetected fd =>
    rw [hands_step_eq]
    have hl : (s.userBuffer ++ [fd]).length = s.userBuffer.length + 1 := by simp
    by_cases hev : 30 < (s.userBuffer ++ [fd]).length
    · rw [if_pos hev]
      have hev2 : s.userBuffer.length = 30 := by omega
      refine ⟨?_, ?_, Nat.zero_le 4⟩
      · show ((s.userBuffer ++ [fd]).drop 1).length ≤ 30
        simp [hev2]
      · intro hlt
        exfalso
        have hlt2 : ((s.userBuffer ++ [fd]).drop 1).length < 30 := hlt
        simp [hev2] at hlt2
    · rw [if_neg hev]
      have hlt30 : s.userBuffer.length < 30 := by omega
      have hc := heq hlt30
      refine ⟨?_, ?_, Nat.zero_le 4⟩
      · show (s.userBuffer ++ [fd]).length ≤ 30
        omega
      · intro hlt
        show s.frameCounter + 1 = (s.userBuffer ++ [fd]).length
        rw [hl, hc]
  | noHands =>
    rw [nohands_step_fst]
    split_ifs with h5
    · exact ⟨by simp, by simp, by simp⟩
    · refine ⟨h30, heq, ?_⟩
      show s.noHandsStreak + 1 ≤ 4
      omega

theorem sinv_runFrom (s : FSLSession) (events : List FrameEvent) (h : SInv s) :
    SInv (runFrom s events) := by
  induction events generalizing s with
  | nil => exact h
  | cons e tl ih => exact ih _ (sinv_step s e h)

theorem sinv_runSession (events : List FrameEvent) : SInv (runSession events) :=
  sinv_runFrom _ _ sinv_initSession

/-! ### Claims C6, C7, C8 -/

/-- C6: in any reachable per-user session, on a hands frame: while the
buffer holds fewer than 15 frames no classification is attempted and the
progress notice appears exactly when the appended-frame counter is
divisible by 3; once the buffer holds at least 15 frames the classifier is
invoked exactly when the counter is divisible by 3, and every invocation
receives the entire current buffer. -/
theorem c6_collecting_and_rate_limit (events : List FrameEvent) (fd : FrameData) :
    ∀ st : FSLSession × SessionOutput,
      st = handle_process_fsl_frame (runSession events) (.handsDetected fd) →
      (st.1.userBuffer.length < 15 →
        (∀ l, st.2 ≠ SessionOutput.predictionCall l) ∧
        (st.2 = SessionOutput.collectingProgress st.1.userBuffer.length ↔
          st.1.frameCounter % 3 = 0)) ∧
      (15 ≤ st.1.userBuffer.length →
        (st.2 = SessionOutput.predictionCall st.1.userBuffer ↔
          st.1.frameCounter % 3 = 0)) ∧
      (∀ l, st.2 = SessionOutput.predictionCall l → l = st.1.userBuffer) := by
  intro st hst
  obtain ⟨h30, heq, -⟩ := sinv_runSession events
  subst hst
  rw [hands_step_eq]
  by_cases hev : 30 < ((runSession events).userBuffer ++ [fd]).length
  · have hev2 : (runSession events).userBuffer.length = 30 := by
      simp only [List.length_append, List.length_cons, List.length_nil] at hev
      omega
    rw [if_pos hev]
    have hDlen : (((runSession events).userBuffer ++ [fd]).drop 1).length = 30 := by
      simp [hev2]
    dsimp only
    rw [hDlen, if_neg (by omega : ¬(30 : Nat) < 15)]
    refine ⟨fun h => absurd h (by omega), fun _ => ?_, ?_⟩
    · by_cases hm : ((runSession events).frameCounter + 1) % 3 = 0 <;> simp [hm]
    · intro l hl2
      by_cases hm : ((runSession events).frameCounter + 1) % 3 = 0 <;> simp [hm] at hl2
      rw [List.drop_one]
      exact hl2.symm
  · rw [if_neg hev]
    have hl : ((runSession events).userBuffer ++ [fd]).length =
        (runSession events).userBuffer.length + 1 := by simp
    have hlt30 : (runSession events).userBuffer.length < 30 := by omega
    have hc := heq hlt30
    have hAlen : ((runSession events).userBuffer ++ [fd]).length =
        (runSession events).frameCounter + 1 := by simp [hc]
    dsimp only
    by_cases h15 : ((runSession events).userBuffer ++ [fd]).length < 15
    · rw [if_pos h15]
      refine ⟨fun _ => ⟨?_, ?_⟩, fun h => absurd h15 (by omega), ?_⟩
      · intro l
        by_cases hm : ((runSession events).userBuffer.length + 1) % 3 = 0 <;> simp [hm]
      · by_cases hm : ((runSession events).userBuffer.length + 1) % 3 = 0 <;> simp [hm, hc]
      · intro l hl2
        by_cases hm : ((runSession events).userBuffer.length + 1) % 3 = 0 <;>
          simp [hm] at hl2
    · rw [if_neg h15]
      refine ⟨fun h => absurd h h15, fun _ => ?_, ?_⟩
      · by_cases hm : ((runSession events).frameCounter + 1) % 3 = 0 <;> simp [hm]
      · intro l hl2
        by_cases hm : ((runSession events).frameCounter + 1) % 3 = 0 <;> simp [hm] at hl2
        exact hl2.symm

set_option maxRecDepth 100000 in
/-- C6 witness: the 15th buffered frame (counter 15, divisible by 3)
triggers a prediction on the whole buffer. -/
theorem c6_witness :
    15 ≤ (handle_process_fsl_frame
        (runSession (List.replicate 14 (FrameEvent.handsDetected oneHandFrame)))
        (.handsDetected oneHandFrame)).1.userBuffer.length ∧
    (handle_process_fsl_frame
        (runSession (List.replicate 14 (FrameEvent.handsDetected oneHandFrame)))
        (.handsDetected oneHandFrame)).2 =
      SessionOutput.predictionCall (handle_process_fsl_frame
        (runSession (List.replicate 14 (FrameEvent.handsDetected oneHandFrame)))
        (.handsDetected oneHandFrame)).1.userBuffer := by
  refine ⟨by decide, ?_⟩
  exact (((c6_collecting_and_rate_limit
      (List.replicate 14 (FrameEvent.handsDetected oneHandFrame)) oneHandFrame) _ rfl).2.1
    (by decide)).mpr (by decide)

theorem five_nohands_reset (s : FSLSession) (h4 : s.noHandsStreak ≤ 4) :
    (runFrom s (List.replicate 5 FrameEvent.noHands)).userBuffer = [] ∧
    (runFrom s (List.replicate 5 FrameEvent.noHands)).frameCounter = 0 := by
  obtain ⟨b, c, k⟩ := s
  have hk : k ≤ 4 := h4
  simp only [runFrom, List.replicate, List.foldl]
  interval_cases k <;> simp [nohands_step_fst]

/-- C7: any reachable session with a nonempty buffer returns to the empty
state after 5 consecutive no-hand frames: buffer length 0 and frame counter
reset to 0. -/
theorem c7_reset_after_five_no_hands (events : List FrameEvent)
    (hbuf : 0 < (runSession events).userBuffer.length) :
    (runFrom (runSession events) (List.replicate 5 FrameEvent.noHands)).userBuffer = [] ∧
    (runFrom (runSession events) (List.replicate 5 FrameEvent.noHands)).frameCounter = 0 :=
  five_nohands_reset _ (sinv_runSession events).2.2

/-- C7 witness: a session that buffered one hands frame resets after 5
no-hand frames. -/
theorem c7_witness :
    0 < (runSession [FrameEvent.handsDetected oneHandFrame]).userBuffer.length ∧
    (runFrom (runSession [FrameEvent.handsDetected oneHandFrame])
        (List.replicate 5 FrameEvent.noHands)).userBuffer = [] :=
  ⟨by decide, (c7_reset_after_five_no_hands [FrameEvent.handsDetected oneHandFrame]
      (by decide)).1⟩

/-- C8 (refuting the one-notice-per-10 claim): after one buffered hands
frame, a run of 10 consecutive no-hand frames emits the no-hands notice
twice (on the 1st and the 6th), because the streak is reset to 0 when it
reaches 5 and the notice fires whenever the post-reset streak is 1 modulo
10. -/
theorem c8_two_notices_in_ten_no_hand_frames :
    ((runWithOutputs (runSession [FrameEvent.handsDetected oneHandFrame])
        (List.replicate 10 FrameEvent.noHands)).2.count SessionOutput.noHandsNotice = 2) ∧
    ¬((runWithOutputs (runSession [FrameEvent.handsDetected oneHandFrame])
        (List.replicate 10 FrameEvent.noHands)).2.count SessionOutput.noHandsNotice ≤ 1) := by
  decide

/-! ### Claim C2 -/

/-- A room with two users of which only one is camera-ready, before any
start request. -/
def c2Room : RoomState :=
  { participants := [1, 2]
    cameraStatus := [(1, true), (2, false)]
    ongoing := false
    scoresSaved := false
    finalScores := none
    persisted := []
    saveCount := 0
    creatorId := some 1
    creatorParticipated := true }

/-- C2 (failing input): a start request with 1 of 2 cameras ready is
rejected with the "1/2 ready" message, yet the room's ongoing flag — false
beforehand — has been set to true, because `handle_start_game` sets it
before evaluating the readiness barrier. -/
theorem c2_rejected_request_still_sets_ongoing :
    c2Room.ongoing = false ∧
    (handle_start_game c2Room).2 = StartOutcome.notAllReady 1 2 ∧
    (handle_start_game c2Room).1.ongoing = true := by
  decide

/-! ### Claim C1: score accumulation and at-most-once persistence -/

theorem any_key_iff (m : List (Nat × Int)) (u : Nat) :
    (m.any (fun p => p.1 == u)) = true ↔ u ∈ scoreKeys m := by
  simp [scoreKeys, List.any_eq_true, List.mem_map, beq_iff_eq]

theorem scoreKeys_updateScore (m : List (Nat × Int)) (u : Nat) (s : Int) :
    scoreKeys (updateScore m u s) =
      if u ∈ scoreKeys m then scoreKeys m else scoreKeys m ++ [u] := by
  unfold updateScore
  by_cases hu : u ∈ scoreKeys m
  · rw [if_pos ((any_key_iff m u).mpr hu), if_pos hu]
    unfold scoreKeys
    rw [List.map_map]
    apply List.map_congr_left
    intro p _
    by_cases hpu : p.1 = u
    · simp [hpu]
    · simp [hpu]
  · have hany : ¬(m.any (fun p => p.1 == u) = true) := fun h => hu ((any_key_iff m u).mp h)
    rw [if_neg hany, if_neg hu]
    simp [scoreKeys]

theorem mem_scoreKeys_updateScore (m : List (Nat × Int)) (u : Nat) (s : Int) :
    u ∈ scoreKeys (updateScore m u s) := by
  rw [scoreKeys_updateScore]
  by_cases hu : u ∈ scoreKeys m <;> simp [hu]

theorem mem_scoreKeys_updateScore_of_mem (m : List (Nat × Int)) (u v : Nat) (s : Int)
    (hv : v ∈ scoreKeys m) : v ∈ scoreKeys (updateScore m u s) := by
  rw [scoreKeys_updateScore]
  by_cases hu : u ∈ scoreKeys m <;> simp [hu, hv]

theorem updateScore_length_of_mem (m : List (Nat × Int)) (u : Nat) (s : Int)
    (hu : u ∈ scoreKeys m) : (updateScore m u s).length = m.length := by
  unfold updateScore
  rw [if_pos ((any_key_iff m u).mpr hu)]
  simp

theorem find?_map_update (m : List (Nat × Int)) (u : Nat) (s : Int) (hm : u ∈ scoreKeys m) :
    (m.map (fun p => if p.1 = u then (u, s) else p)).find? (fun p => p.1 == u) = some (u, s) := by
  induction m with
  | nil => simp [scoreKeys] at hm
  | cons p t ih =>
    by_cases hpu : p.1 = u
    · simp [hpu, List.find?]
    · rw [List.map_cons, if_neg hpu, List.find?_cons_of_neg _ (by simp [hpu])]
      apply ih
      have hcons : scoreKeys (p :: t) = p.1 :: scoreKeys t := rfl
      rw [hcons] at hm
      rcases List.mem_cons.mp hm with h | h
      · exact absurd h.symm hpu
      · exact h

theorem lookupScore_updateScore (m : List (Nat × Int)) (u : Nat) (s : Int) :
    lookupScore (updateScore m u s) u = some s := by
  unfold updateScore lookupScore
  by_cases hu : u ∈ scoreKeys m
  · rw [if_pos ((any_key_iff m u).mpr hu), find?_map_update m u s hu]
    rfl
  · have hany : ¬(m.any (fun p => p.1 == u) = true) := fun h => hu ((any_key_iff m u).mp h)
    rw [if_neg hany, List.find?_append]
    have hnone : m.find? (fun p => p.1 == u) = none := by
      rw [List.find?_eq_none]
      intro x hx hpx
      exact hu ((any_key_iff m u).mp (List.any_eq_true.mpr ⟨x, hx, hpx⟩))
    rw [hnone]
    simp [List.find?]

/-- The game instance has been persisted exactly once and the room is
marked saved. -/
def SavedOnce (r : RoomState) : Prop := r.saveCount = 1 ∧ r.scoresSaved = true

/-- Scores are still accumulating: nothing persisted yet, every user seen
so far holds a key in the score map, and the map is still smaller than the
participant list. -/
def Accum (r : RoomState) (seen : List Nat) : Prop :=
  r.saveCount = 0 ∧ r.scoresSaved = false ∧
  ∃ m, r.finalScores = some m ∧ (∀ u ∈ seen, u ∈ scoreKeys m) ∧
    m.length < r.participants.length

theorem save_game_results_participants (r : RoomState) :
    (save_game_results r).participants = r.participants := by
  rcases hf : r.finalScores with _ | m <;>
    simp only [save_game_results, hf] <;>
    first
      | rfl
      | (split_ifs <;> rfl)

theorem handle_end_game_participants (u : Nat) (sc : Option Int) (r : RoomState) :
    (handle_end_game u sc r).participants = r.participants := by
  unfold handle_end_game
  cases sc <;> simp [save_game_results_participants]

theorem runEndGames_participants (r : RoomState) (events : List (Nat × Int)) :
    (runEndGames r events).participants = r.participants := by
  induction events generalizing r with
  | nil => rfl
  | cons e tl ih =>
    have h1 : runEndGames r (e :: tl) = runEndGames (handle_end_game e.1 (some e.2) r) tl := rfl
    rw [h1, ih, handle_end_game_participants]

theorem save_game_results_some (r : RoomState) (m : List (Nat × Int))
    (hf : r.finalScores = some m) :
    save_game_results r =
      if r.scoresSaved then r
      else if m.length < r.participants.length then r
      else
        { r with
          persisted := r.persisted ++
            m.filter (fun p => !(r.creatorId == some p.1 && !r.creatorParticipated)),
          scoresSaved := true,
          finalScores := some [],
          saveCount := r.saveCount + 1 } := by
  simp only [save_game_results, hf]

theorem handle_end_game_some (u : Nat) (s : Int) (r : RoomState) :
    handle_end_game u (some s) r =
      save_game_results
        { r with
          ongoing := false
          finalScores := some (updateScore (r.finalScores.getD []) u s) } := rfl

theorem end_game_step_inv (r : RoomState) (seen : List Nat) (u : Nat) (s : Int)
    (h : SavedOnce r ∨ Accum r seen) :
    SavedOnce (handle_end_game u (some s) r) ∨
      Accum (handle_end_game u (some s) r) (u :: seen) := by
  rw [handle_end_game_some]
  set r2 : RoomState :=
    { r with
      ongoing := false
      finalScores := some (updateScore (r.finalScores.getD []) u s) } with hr2
  have hf : r2.finalScores = some (updateScore (r.finalScores.getD []) u s) := rfl
  rw [save_game_results_some r2 _ hf]
  rcases h with ⟨hc, hs⟩ | ⟨hc, hs, m, hm, hseen, hlt⟩
  · left
    rw [if_pos (show r2.scoresSaved = true from hs)]
    exact ⟨hc, hs⟩
  · have hs2 : ¬(r2.scoresSaved = true) := by
      show ¬(r.scoresSaved = true)
      simp [hs]
    rw [if_neg hs2]
    have hgd : r.finalScores.getD [] = m := by rw [hm]; rfl
    by_cases hlen : (updateScore (r.finalScores.getD []) u s).length < r2.participants.length
    · right
      rw [if_pos hlen]
      refine ⟨hc, hs, updateScore (r.finalScores.getD []) u s, hf, ?_, hlen⟩
      intro v hv
      rw [hgd]
      rcases List.mem_cons.mp hv with rfl | hv2
      · exact mem_scoreKeys_updateScore m v s
      · exact mem_scoreKeys_updateScore_of_mem m u v s (hseen v hv2)
    · left
      rw [if_neg hlen]
      refine ⟨?_, rfl⟩
      show r2.saveCount + 1 = 1
      show r.saveCount + 1 = 1
      omega

theorem end_game_first (ps : List Nat) (u : Nat) (s : Int) :
    SavedOnce (handle_end_game u (some s) (startedRoom ps)) ∨
      Accum (handle_end_game u (some s) (startedRoom ps)) [u] := by
  rw [handle_end_game_some]
  set r2 : RoomState :=
    { startedRoom ps with
      ongoing := false
      finalScores := some (updateScore (((startedRoom ps).finalScores).getD []) u s) } with hr2
  have hup : updateScore (((startedRoom ps).finalScores).getD []) u s = [(u, s)] := by
    simp [startedRoom, updateScore]
  have hf : r2.finalScores = some [(u, s)] := by
    rw [hr2]
    simp [hup]
  rw [save_game_results_some r2 _ hf]
  have hs2 : ¬(r2.scoresSaved = true) := by simp [hr2, startedRoom]
  rw [if_neg hs2]
  by_cases hlen : ([(u, s)] : List (Nat × Int)).length < r2.participants.length
  · right
    rw [if_pos hlen]
    refine ⟨rfl, rfl, [(u, s)], hf, ?_, hlen⟩
    intro v hv
    rcases List.mem_cons.mp hv with rfl | hv2
    · simp [scoreKeys]
    · simp at hv2
  · left
    rw [if_neg hlen]
    refine ⟨?_, rfl⟩
    show r2.saveCount + 1 = 1
    simp [hr2, startedRoom]

theorem runEndGames_inv (events : List (Nat × Int)) (r : RoomState) (seen : List Nat)
    (h : SavedOnce r ∨ Accum r seen) :
    ∃ seen2, (∀ v ∈ seen, v ∈ seen2) ∧ (∀ e ∈ events, e.1 ∈ seen2) ∧
      (SavedOnce (runEndGames r events) ∨ Accum (runEndGames r events) seen2) := by
  induction events generalizing r seen with
  | nil => exact ⟨seen, fun v hv => hv, by simp, h⟩
  | cons e tl ih =>
    have h1 := end_game_step_inv r seen e.1 e.2 h
    obtain ⟨seen2, hsub, hev, hfin⟩ := ih (handle_end_game e.1 (some e.2) r) (e.1 :: seen) h1
    refine ⟨seen2, fun v hv => hsub v (List.mem_cons_of_mem _ hv), ?_, ?_⟩
    · intro e2 he2
      rcases List.mem_cons.mp he2 with rfl | h2
      · exact hsub e2.1 (List.mem_cons_self _ _)
      · exact hev e2 h2
    · have hrw : runEndGames r (e :: tl) = runEndGames (handle_end_game e.1 (some e.2) r) tl := rfl
      rw [hrw]
      exact hfin

/-- C1: starting from a freshly started room (scores-persisted flag false,
empty score map), processing any nonempty sequence of end-game events that
covers every current participant executes score persistence exactly once —
duplicate end-game events from the same user included, since a duplicate
overwrites that user's accumulated score (last write wins, shown by the
second conjunct) instead of growing the map; and persistence fires exactly
when the scores-persisted flag is clear and the accumulated scores reach
the number of current participants (third conjunct). -/
theorem c1_persist_exactly_once (ps : List Nat) (events : List (Nat × Int))
    (hnd : ps.Nodup) (hne : events ≠ [])
    (hall : ∀ p ∈ ps, p ∈ events.map Prod.fst) :
    (runEndGames (startedRoom ps) events).saveCount = 1 ∧
    (∀ m u s1 s2,
      lookupScore (updateScore (updateScore m u s1) u s2) u = some s2 ∧
      (updateScore (updateScore m u s1) u s2).length = (updateScore m u s1).length) ∧
    (∀ r : RoomState, ∀ m, r.finalScores = some m →
      ((save_game_results r).saveCount = r.saveCount + 1 ↔
        (r.scoresSaved = false ∧ r.participants.length ≤ m.length))) := by
  refine ⟨?_, ?_, ?_⟩
  · obtain ⟨e, tl, rfl⟩ := List.exists_cons_of_ne_nil hne
    have h1 := end_game_first ps e.1 e.2
    obtain ⟨seen2, hsub, hev, hfin⟩ :=
      runEndGames_inv tl (handle_end_game e.1 (some e.2) (startedRoom ps)) [e.1] h1
    have hrun : runEndGames (startedRoom ps) (e :: tl) =
        runEndGames (handle_end_game e.1 (some e.2) (startedRoom ps)) tl := rfl
    rw [hrun]
    rcases hfin with ⟨hc, _⟩ | ⟨hc0, hsv, m, hm, hseen, hlt⟩
    · exact hc
    · exfalso
      have hpsub : ∀ p ∈ ps, p ∈ scoreKeys m := by
        intro p hp
        rcases List.mem_map.mp (hall p hp) with ⟨e2, he2, rfl⟩
        rcases List.mem_cons.mp he2 with rfl | h2
        · exact hseen _ (hsub e2.1 (List.mem_cons_self _ _))
        · exact hseen _ (hev e2 h2)
      have hlen : ps.length ≤ m.length := by
        have h2 : ps.toFinset ⊆ (scoreKeys m).toFinset := by
          intro x hx
          rw [List.mem_toFinset] at hx ⊢
          exact hpsub x hx
        have h3 := Finset.card_le_card h2
        have h4 := List.toFinset_card_le (scoreKeys m)
        have h5 : (scoreKeys m).length = m.length := by simp [scoreKeys]
        have h6 := List.toFinset_card_of_nodup hnd
        omega
      have hps2 : (runEndGames (handle_end_game e.1 (some e.2) (startedRoom ps)) tl).participants
          = ps := by
        rw [runEndGames_participants, handle_end_game_participants]
        rfl
      rw [hps2] at hlt
      omega
  · intro m u s1 s2
    exact ⟨lookupScore_updateScore _ u s2,
      updateScore_length_of_mem _ u s2 (mem_scoreKeys_updateScore m u s1)⟩
  · intro r m hm
    rw [save_game_results_some r m hm]
    by_cases h1 : r.scoresSaved = true
    · rw [if_pos h1]
      constructor
      · intro habs
        omega
      · rintro ⟨hf, -⟩
        rw [h1] at hf
        cases hf
    · rw [if_neg h1]
      by_cases h2 : m.length < r.participants.length
      · rw [if_pos h2]
        constructor
        · intro habs
          omega
        · rintro ⟨-, hle⟩
          omega
      · rw [if_neg h2]
        constructor
        · intro _
          exact ⟨by simpa using h1, by omega⟩
        · intro _
          rfl

/-- C1 witness: the spec's scenario — participants 1, 2, 3; user 1 ends
with 10, user 2 with 20, user 1 again with 15 (overwrite), user 3 with 5 —
gives exactly one persistence execution. -/
theorem c1_witness :
    ([1, 2, 3] : List Nat).Nodup ∧
    ([((1 : Nat), (10 : Int)), (2, 20), (1, 15), (3, 5)] : List (Nat × Int)) ≠ [] ∧
    (∀ p ∈ ([1, 2, 3] : List Nat),
      p ∈ ([((1 : Nat), (10 : Int)), (2, 20), (1, 15), (3, 5)] : List (Nat × Int)).map Prod.fst) ∧
    (runEndGames (startedRoom [1, 2, 3]) [(1, 10), (2, 20), (1, 15), (3, 5)]).saveCount = 1 :=
  ⟨by decide, by decide, by decide,
   (c1_persist_exactly_once [1, 2, 3] [(1, 10), (2, 20), (1, 15), (3, 5)]
     (by decide) (by decide) (by decide)).1⟩

/-! ### Claim C3: wrists vanish under normalization, so every wrist-motion
feature is exactly zero -/

theorem getD_of_lt {α : Type} (l : List α) (n : Nat) (d : α) (h : n < l.length) :
    l.getD n d = l[n] := by
  rw [List.getD_eq_getElem?_getD, List.getElem?_eq_getElem h]
  rfl

theorem getD_of_le {α : Type} (l : List α) (n : Nat) (d : α) (h : l.length ≤ n) :
    l.getD n d = d := by
  rw [List.getD_eq_getElem?_getD, List.getElem?_eq_none h]
  rfl

theorem getD_map_of_lt {α β : Type} (f : α → β) (l : List α) (n : Nat) (d : β)
    (h : n < l.length) : (l.map f).getD n d = f l[n] := by
  rw [getD_of_lt (l.map f) n d (by simpa using h)]
  simp

theorem normalize_hand_wrist_zero (hand : List (List ℚ)) (c : Nat) :
    ((((if (hand.getD 0 []).any (fun x => decide (x ≠ 0)) then
        hand.map (fun lm => List.zipWith (fun x w => x - w) lm (hand.getD 0 []))
      else hand)).getD 0 []).getD c 0) = 0 := by
  by_cases ha : (hand.getD 0 []).any (fun x => decide (x ≠ 0))
  · rw [if_pos ha]
    cases hand with
    | nil => simp at ha
    | cons lm0 t =>
      have hw : (lm0 :: t).getD 0 [] = lm0 := rfl
      rw [hw] at ha ⊢
      have h0 : (0 : Nat) < (lm0 :: t).length := by simp
      rw [getD_map_of_lt _ (lm0 :: t) 0 [] h0]
      show (List.zipWith (fun x w => x - w) lm0 lm0).getD c 0 = 0
      rw [List.zipWith_same]
      by_cases hc : c < lm0.length
      · rw [getD_map_of_lt _ lm0 c 0 hc]
        simp
      · rw [getD_of_le _ c 0 (by simpa using not_lt.mp hc)]
  · rw [if_neg ha]
    by_cases hc : c < (hand.getD 0 []).length
    · rw [getD_of_lt _ c 0 hc]
      have hmem := List.getElem_mem hc
      simp only [List.any_eq_true, not_exists, not_and] at ha
      have h2 := ha _ hmem
      simpa using h2
    · rw [getD_of_le _ c 0 (not_lt.mp hc)]

theorem normalize_wrist_zero (a : LandArr) (fr : List (List (List ℚ)))
    (hfr : fr ∈ normalize_sequence a) (h c : Nat) :
    ((fr.getD h []).getD 0 []).getD c 0 = 0 := by
  unfold normalize_sequence at hfr
  rcases List.mem_map.mp hfr with ⟨fr0, _, rfl⟩
  by_cases hh : h < fr0.length
  · rw [getD_map_of_lt _ fr0 h [] hh]
    exact normalize_hand_wrist_zero (fr0[h]) c
  · rw [getD_of_le _ h [] (by simpa using not_lt.mp hh)]
    rfl

theorem framePt_wrist_zero (a : LandArr) (fr : List (List (List ℚ)))
    (hfr : fr ∈ normalize_sequence a) (h : Nat) :
    framePt fr h 0 = ((0 : ℚ), (0 : ℚ)) := by
  unfold framePt
  rw [normalize_wrist_zero a fr hfr h 0, normalize_wrist_zero a fr hfr h 1]

theorem preArr_wrist_zero (frames : List FrameData) (t h c : Nat) :
    coordAt (preArr frames) t h 0 c = 0 := by
  unfold coordAt
  by_cases ht : t < (preArr frames).length
  · rw [getD_of_lt _ t [] ht]
    exact normalize_wrist_zero (smooth_sequence (shapeFrames frames)) _
      (by simpa [preArr] using List.getElem_mem ht) h c
  · rw [getD_of_le _ t [] (not_lt.mp ht)]
    rfl

theorem wristPts_preArr_zero (frames : List FrameData) (h : Nat) :
    ∀ p ∈ wristPts (preArr frames) h, p = ((0 : ℚ), (0 : ℚ)) := by
  intro p hp
  rcases List.mem_map.mp hp with ⟨fr, hfr, rfl⟩
  exact framePt_wrist_zero (smooth_sequence (shapeFrames frames)) fr
    (by simpa [preArr] using hfr) h

theorem nearZero2_zero : nearZero2 ((0 : ℚ), (0 : ℚ)) = true := by
  norm_num [nearZero2, atol]

theorem velocitiesOf_preArr (frames : List FrameData) (h : Nat) :
    velocitiesOf (preArr frames) h = [] := by
  unfold velocitiesOf
  apply List.filterMap_eq_nil_iff.mpr
  intro pr hpr
  have h1 := wristPts_preArr_zero frames h pr.1 (List.of_mem_zip hpr).1
  have h2 := wristPts_preArr_zero frames h pr.2
    (List.mem_of_mem_drop (List.of_mem_zip hpr).2)
  rw [h1, h2, nearZero2_zero]
  rfl

theorem padTruncate_of_length (k : Nat) (l : List ℝ) (hl : l.length = k) :
    padTruncate k l = l := by
  simp [padTruncate, hl]

theorem temporal_hand_preArr (frames : List FrameData) (h : Nat) :
    temporal_hand (preArr frames) h = List.replicate 6 0 := by
  unfold temporal_hand
  by_cases hg : (numHands (preArr frames) ≤ h || (preArr frames).length < 2) = true
  · rw [if_pos hg]
  · rw [if_neg hg]
    rw [velocitiesOf_preArr]
    norm_num
    rfl

theorem extract_temporal_preArr (frames : List FrameData) :
    extract_enhanced_temporal_features (preArr frames) = List.replicate 12 0 := by
  unfold extract_enhanced_temporal_features
  rw [temporal_hand_preArr, temporal_hand_preArr, ← List.replicate_add]
  exact padTruncate_of_length 12 _ (by simp)

theorem trajectory_hand_preArr (frames : List FrameData) (h : Nat) :
    trajectory_hand (preArr frames) h = List.replicate 8 0 := by
  unfold trajectory_hand
  by_cases hg : numHands (preArr frames) ≤ h
  · rw [if_pos hg]
  · rw [if_neg hg]
    have hfilter : (wristPts (preArr frames) h).filter (fun p => !nearZero2 p) = [] := by
      apply List.filter_eq_nil_iff.mpr
      intro p hp
      rw [wristPts_preArr_zero frames h p hp, nearZero2_zero]
      simp
    rw [hfilter]
    norm_num

theorem extract_trajectory_preArr (frames : List FrameData) :
    extract_trajectory_features (preArr frames) = List.replicate 16 0 := by
  unfold extract_trajectory_features
  rw [trajectory_hand_preArr, trajectory_hand_preArr, ← List.replicate_add]
  exact padTruncate_of_length 16 _ (by simp)

theorem hand_motion_preArr (frames : List FrameData) (h : Nat) :
    calculate_hand_motion (preArr frames) h = 0 := by
  unfold calculate_hand_motion
  by_cases hg : (numHands (preArr frames) ≤ h || (preArr frames).length < 2) = true
  · rw [if_pos hg]
  · rw [if_neg hg, velocitiesOf_preArr]
    simp

theorem sync_preArr (frames : List FrameData) :
    calculate_hand_synchronization (preArr frames) = 0 := by
  unfold calculate_hand_synchronization
  by_cases hg : (numHands (preArr frames) < 2 || (preArr frames).length < 3) = true
  · rw [if_pos hg]
  · rw [if_neg hg]
    rw [velocitiesOf_preArr, velocitiesOf_preArr]
    norm_num

theorem rite_false (p : Prop) (hp : ¬p) (x y : ℝ) : rite p x y = y := by
  unfold rite
  exact if_neg hp

theorem global_preArr_form (frames fl : List FrameData) :
    extract_global_features (preArr frames) fl =
      [((fl.map (fun f => (f.hands.getD []).length)).sum : ℝ) / (fl.length : ℝ), 0, 0, 0, 0,
       calculate_gesture_complexity (preArr frames)] := by
  unfold extract_global_features
  dsimp only
  have hm0 := hand_motion_preArr frames 0
  have hm1 := hand_motion_preArr frames 1
  have hsync := sync_preArr frames
  rw [hm0, hm1, hsync]
  have hrel : rite (0 < (0 : ℝ) + 0) (|(0 : ℝ) - 0| / ((0 : ℝ) + 0)) 0 = 0 :=
    rite_false _ (by norm_num) _ _
  have hdom : rite (0 < (0 : ℝ) + 0) (max (0 : ℝ) 0 / ((0 : ℝ) + 0)) 0 = 0 :=
    rite_false _ (by norm_num) _ _
  rw [hrel, hdom]
  have hsep : (if 2 ≤ numHands (preArr frames) then
      (if 1 < ((preArr frames).filterMap (fun fr =>
          if nearZero2 (framePt fr 0 0) || nearZero2 (framePt fr 1 0) then none
          else some (edist2 (framePt fr 0 0) (framePt fr 1 0)))).length then
        |((preArr frames).filterMap (fun fr =>
            if nearZero2 (framePt fr 0 0) || nearZero2 (framePt fr 1 0) then none
            else some (edist2 (framePt fr 0 0) (framePt fr 1 0)))).getD
          (((preArr frames).filterMap (fun fr =>
            if nearZero2 (framePt fr 0 0) || nearZero2 (framePt fr 1 0) then none
            else some (edist2 (framePt fr 0 0) (framePt fr 1 0)))).length - 1) 0 -
          ((preArr frames).filterMap (fun fr =>
            if nearZero2 (framePt fr 0 0) || nearZero2 (framePt fr 1 0) then none
            else some (edist2 (framePt fr 0 0) (framePt fr 1 0)))).getD 0 0|
      else 0)
    else (0 : ℝ)) = 0 := by
    have hnil : (preArr frames).filterMap (fun fr =>
        if nearZero2 (framePt fr 0 0) || nearZero2 (framePt fr 1 0) then none
        else some (edist2 (framePt fr 0 0) (framePt fr 1 0))) = [] := by
      apply List.filterMap_eq_nil_iff.mpr
      intro fr hfr
      rw [framePt_wrist_zero (smooth_sequence (shapeFrames frames)) fr
          (by simpa [preArr] using hfr) 0,
        framePt_wrist_zero (smooth_sequence (shapeFrames frames)) fr
          (by simpa [preArr] using hfr) 1,
        nearZero2_zero]
      rfl
    rw [hnil]
    norm_num
  rw [hsep]
  exact padTruncate_of_length 6 _ (by simp)

theorem extract_spatial_length (a : LandArr) : (extract_spatial_features a).length = 30 := by
  unfold extract_spatial_features
  exact padTruncate_length _ _

theorem extract_temporal_length (a : LandArr) :
    (extract_enhanced_temporal_features a).length = 12 := by
  unfold extract_enhanced_temporal_features
  exact padTruncate_length _ _

theorem extract_geometric_length (a : LandArr) : (extract_geometric_features a).length = 4 := by
  unfold extract_geometric_features
  exact padTruncate_length _ _

theorem extract_statistical_length (a : LandArr) :
    (extract_statistical_features a).length = 8 := by
  unfold extract_statistical_features
  exact padTruncate_length _ _

theorem extract_trajectory_length (a : LandArr) :
    (extract_trajectory_features a).length = 16 := by
  unfold extract_trajectory_features
  exact padTruncate_length _ _

/-- C3: after preprocessing, the wrist landmark of every hand in every
frame is exactly the origin (the wrist is subtracted from itself when
nonzero, and sentinel wrists are already zero); consequently, for every
window on which extraction succeeds, all 12 temporal features (indices
30-41), all 16 trajectory features (indices 54-69), and the four
wrist-motion global features — hand-separation change (71), relative
motion (72), dominant-hand activity (73) and synchronization score (74) —
are exactly 0, because those computations filter out origin positions. -/
theorem c3_wrist_origin_and_motion_features_zero (frames : List FrameData)
    (h5 : 5 ≤ frames.length) :
    (∀ t h c, coordAt (preArr frames) t h 0 c = 0) ∧
    (∀ v, extract_sequence_features frames = some v →
      (v.drop 30).take 12 = List.replicate 12 (0 : ℝ) ∧
      (v.drop 54).take 16 = List.replicate 16 (0 : ℝ) ∧
      v[71]? = some (0 : ℝ) ∧ v[72]? = some (0 : ℝ) ∧
      v[73]? = some (0 : ℝ) ∧ v[74]? = some (0 : ℝ)) := by
  refine ⟨fun t h c => preArr_wrist_zero frames t h c, ?_⟩
  intro v hv
  rw [extract_eq_some frames (by omega)] at hv
  replace hv := (Option.some.inj hv).symm
  subst hv
  set a := preArr frames with hadef
  set sp := extract_spatial_features a with hspdef
  set te := extract_enhanced_temporal_features a with htedef
  set ge := extract_geometric_features a with hgedef
  set st := extract_statistical_features a with hstdef
  set tr := extract_trajectory_features a with htrdef
  set gl := extract_global_features a (padHandsEffect frames) with hgldef
  have h30 : sp.length = 30 := by rw [hspdef]; exact extract_spatial_length a
  have h12 : te.length = 12 := by rw [htedef]; exact extract_temporal_length a
  have h4 : ge.length = 4 := by rw [hgedef]; exact extract_geometric_length a
  have h8 : st.length = 8 := by rw [hstdef]; exact extract_statistical_length a
  have h16 : tr.length = 16 := by rw [htrdef]; exact extract_trajectory_length a
  have hte0 : te = List.replicate 12 0 := by
    rw [htedef, hadef]
    exact extract_temporal_preArr frames
  have htr0 : tr = List.replicate 16 0 := by
    rw [htrdef, hadef]
    exact extract_trajectory_preArr frames
  have hgl0 : gl = [((List.map (fun f => ((f.hands.getD []).length : ℝ))
      (padHandsEffect frames)).sum : ℝ) / ((padHandsEffect frames).length : ℝ), 0, 0, 0, 0,
      calculate_gesture_complexity a] := by
    rw [hgldef, hadef]
    exact global_preArr_form frames (padHandsEffect frames)
  refine ⟨?_, ?_, ?_, ?_, ?_, ?_⟩
  · have hassoc : sp ++ te ++ ge ++ st ++ tr ++ gl =
        sp ++ (te ++ (ge ++ (st ++ (tr ++ gl)))) := by
      simp [List.append_assoc]
    have e1 : (sp ++ (te ++ (ge ++ (st ++ (tr ++ gl))))).drop 30 =
        te ++ (ge ++ (st ++ (tr ++ gl))) := by
      rw [← h30]
      exact List.drop_left _ _
    have e2 : (te ++ (ge ++ (st ++ (tr ++ gl)))).take 12 = te := by
      rw [← h12]
      exact List.take_left _ _
    rw [hassoc, e1, e2, hte0]
  · have hassoc : sp ++ te ++ ge ++ st ++ tr ++ gl =
        (sp ++ (te ++ (ge ++ st))) ++ (tr ++ gl) := by
      simp [List.append_assoc]
    have hplen : (sp ++ (te ++ (ge ++ st))).length = 54 := by
      simp [h30, h12, h4, h8]
    have e1 : ((sp ++ (te ++ (ge ++ st))) ++ (tr ++ gl)).drop 54 = tr ++ gl := by
      rw [← hplen]
      exact List.drop_left _ _
    have e2 : (tr ++ gl).take 16 = tr := by
      rw [← h16]
      exact List.take_left _ _
    rw [hassoc, e1, e2, htr0]
  all_goals {
    have hassoc : sp ++ te ++ ge ++ st ++ tr ++ gl =
        (sp ++ (te ++ (ge ++ (st ++ tr)))) ++ gl := by
      simp [List.append_assoc]
    have hplen : (sp ++ (te ++ (ge ++ (st ++ tr)))).length = 70 := by
      simp [h30, h12, h4, h8, h16]
    rw [hassoc, List.getElem?_append_right (by omega), hplen, hgl0]
    rfl
  }

/-- C3 witness: the 5-frame window with one hand per frame satisfies the
hypothesis, and its preprocessed wrist x-coordinate at frame 0, hand 0 is
exactly 0. -/
theorem c3_witness :
    5 ≤ oneHandWindow.length ∧ coordAt (preArr oneHandWindow) 0 0 0 0 = 0 :=
  ⟨by decide,
   (c3_wrist_origin_and_motion_features_zero oneHandWindow (by decide)).1 0 0 0⟩

/-! ### Claim C10: the first global feature counts the mutated hands lists -/

/-- C10 (failing input): on a 5-frame window whose frames each contain
exactly one detected hand, the first global feature (index 70,
`avg_hands_detected`) is 2, not 1: `preprocess_sequence` pads each frame's
`hands` list in place to 2 entries before `extract_global_features` counts
`len(frame['hands'])`. -/
theorem c10_avg_hands_counts_padded_lists :
    (extract_sequence_features oneHandWindow).bind (fun v => v[70]?) = some (2 : ℝ) ∧
    (2 : ℝ) ≠ 1 := by
  refine ⟨?_, by norm_num⟩
  rw [extract_eq_some oneHandWindow (by decide)]
  have hb : ∀ (v : List ℝ) (f : List ℝ → Option ℝ), (some v).bind f = f v := fun _ _ => rfl
  rw [hb]
  set a := preArr oneHandWindow with hadef
  set sp := extract_spatial_features a with hspdef
  set te := extract_enhanced_temporal_features a with htedef
  set ge := extract_geometric_features a with hgedef
  set st := extract_statistical_features a with hstdef
  set tr := extract_trajectory_features a with htrdef
  set gl := extract_global_features a (padHandsEffect oneHandWindow) with hgldef
  have h30 : sp.length = 30 := by rw [hspdef]; exact extract_spatial_length a
  have h12 : te.length = 12 := by rw [htedef]; exact extract_temporal_length a
  have h4 : ge.length = 4 := by rw [hgedef]; exact extract_geometric_length a
  have h8 : st.length = 8 := by rw [hstdef]; exact extract_statistical_length a
  have h16 : tr.length = 16 := by rw [htrdef]; exact extract_trajectory_length a
  have hgl0 : gl = [(List.map (fun f => ((f.hands.getD []).length : ℝ))
      (padHandsEffect oneHandWindow)).sum / ((padHandsEffect oneHandWindow).length : ℝ),
      0, 0, 0, 0, calculate_gesture_complexity a] := by
    rw [hgldef, hadef]
    exact global_preArr_form oneHandWindow (padHandsEffect oneHandWindow)
  have hassoc : sp ++ te ++ ge ++ st ++ tr ++ gl =
      (sp ++ (te ++ (ge ++ (st ++ tr)))) ++ gl := by
    simp [List.append_assoc]
  have hplen : (sp ++ (te ++ (ge ++ (st ++ tr)))).length = 70 := by
    simp [h30, h12, h4, h8, h16]
  rw [hassoc, List.getElem?_append_right (by omega), hplen, hgl0]
  have hmap : (padHandsEffect oneHandWindow).map (fun f => (f.hands.getD []).length) =
      [2, 2, 2, 2, 2] := by decide
  have hsum : (List.map (fun f => ((f.hands.getD []).length : ℝ))
      (padHandsEffect oneHandWindow)).sum = 10 := by
    rw [show (fun f : FrameData => ((f.hands.getD []).length : ℝ)) =
        (fun n : Nat => (n : ℝ)) ∘ (fun f : FrameData => (f.hands.getD []).length) from rfl,
      ← List.map_map, hmap]
    norm_num
  have hlen5 : ((padHandsEffect oneHandWindow).length : ℝ) = 5 := by
    rw [show (padHandsEffect oneHandWindow).length = 5 from by decide]
    norm_num
  show some _ = some (2 : ℝ)
  rw [hsum, hlen5]
  norm_num

/-! ### Claim C9: dimensionality mismatch yields the generic error result -/

/-- C9 (amended): when the artifact's expected dimensionality differs from
the 76 features the extractor produces, prediction on any valid window
fails with the generic `prediction_error` result — `scaler.transform`
raises on the shape mismatch and the broad except swallows it; no typed
ModelMismatch variant exists and the vector is neither truncated nor
padded. -/
theorem c9_mismatch_gives_generic_error (art : FSLModelArtifact) (frames : List FrameData)
    (hdim : art.scalerMean.length ≠ 76) (h5 : 5 ≤ frames.length) :
    predict art frames = PredictOutcome.predictionError := by
  unfold predict
  rw [if_neg (show ¬frames.length < 5 by omega),
    extract_eq_some frames (show ¬frames.length < 5 by omega)]
  have hlen := extract_length frames _ (extract_eq_some frames (show ¬frames.length < 5 by omega))
  simp only [scalerTransform]
  rw [hlen, if_neg (fun h : (76 : Nat) = art.scalerMean.length => hdim h.symm)]

/-- C9 (counterexample to the typed-ModelMismatch claim): with a concrete
artifact expecting 10 features and a concrete valid window, the result is
the generic `prediction_error` outcome, not a typed mismatch error. -/
theorem c9_counterexample_generic_error :
    predict artifact10 oneHandWindow = PredictOutcome.predictionError := by
  unfold predict
  rw [if_neg (show ¬oneHandWindow.length < 5 by decide),
    extract_eq_some oneHandWindow (show ¬oneHandWindow.length < 5 by decide)]
  have hlen := extract_length oneHandWindow _
    (extract_eq_some oneHandWindow (show ¬oneHandWindow.length < 5 by decide))
  simp only [scalerTransform]
  rw [hlen, if_neg (show ¬(76 : Nat) = artifact10.scalerMean.length by decide)]

/-- C9 witness: the amended theorem applied at the concrete artifact and
window. -/
theorem c9_witness :
    artifact10.scalerMean.length ≠ 76 ∧ 5 ≤ oneHandWindow.length ∧
    predict artifact10 oneHandWindow = PredictOutcome.predictionError :=
  ⟨by decide, by decide,
   c9_mismatch_gives_generic_error artifact10 oneHandWindow (by decide) (by decide)⟩
